import Mathlib

/-!
Verification of the watermarking tool (`watermark.py`) against its
natural-language specification.

The program stamps a semi-transparent rotated text watermark onto images.
This file gives a shallow embedding of the arithmetic, geometry, placement,
mode-handling, directory-scanning and error-handling logic of the source,
and proves or refutes the frozen claims about it.

Modelling conventions:
* Python floats are modelled as exact rationals (`ℚ`); every concrete
  constant used in a counterexample is chosen to be exactly representable
  as an IEEE-754 double and far from a rounding boundary, so the verdicts
  are robust to the float/rational gap.
* `int(x)` in Python truncates toward zero; this is `pyInt` below.
* The spec's `round(x)` is read as round-half-up (`specRound` below); all
  counterexamples are taken away from `.5` ties, so they refute the claim
  under any tie-breaking convention for `round`.
* Images are modelled by their width, height, color mode and EXIF
  orientation tag; pixel contents are abstracted except where a claim
  speaks about them (paste masking / clipping).
* External collaborators (filesystem, font loading, text measurement,
  mode conversion success) are universally quantified function parameters.
-/

namespace Watermark

/-- Python `int()` applied to a rational: truncation toward zero. -/
def pyInt (q : ℚ) : ℤ := if 0 ≤ q then ⌊q⌋ else ⌈q⌉

/-- The specification's `round`, read as round-half-up. -/
def specRound (q : ℚ) : ℤ := ⌊q + 1/2⌋

/-- Line 54: `alpha = max(0, min(255, int(255 * opacity)))`. -/
def alphaOf (opacity : ℚ) : ℤ := max 0 (min 255 (pyInt (255 * opacity)))

/-- Line 55: `shadow_alpha = max(0, min(255, int(alpha * 0.5)))`.
`0.5` is exactly representable, so the float product is exact. -/
def shadow_alphaOf (opacity : ℚ) : ℤ :=
  max 0 (min 255 (pyInt ((alphaOf opacity : ℚ) * (1/2))))

/-- Line 61: primary glyph fill `(255, 255, 255, alpha)`. -/
def primaryFill (opacity : ℚ) : ℤ × ℤ × ℤ × ℤ := (255, 255, 255, alphaOf opacity)

/-- Line 60: shadow fill `(0, 0, 0, shadow_alpha)`. -/
def shadowFill (opacity : ℚ) : ℤ × ℤ × ℤ × ℤ := (0, 0, 0, shadow_alphaOf opacity)

/-- The alpha value the spec claims: `round(255*opacity)` clamped to [0,255]. -/
def specAlpha (opacity : ℚ) : ℤ := max 0 (min 255 (specRound (255 * opacity)))

/-- The shadow alpha the spec claims: `round(alpha*0.5)` clamped to [0,255]. -/
def specShadowAlpha (opacity : ℚ) : ℤ :=
  max 0 (min 255 (specRound ((alphaOf opacity : ℚ) * (1/2))))

/-- Line 43: `size = max(12, int(min(w, h) * scale))`. -/
def fontSize (w h : ℕ) (scale : ℚ) : ℤ := max 12 (pyInt (((min w h : ℕ) : ℚ) * scale))

/-- Line 53: `margin = int(min(w, h) * margin_ratio)`.  The ratio argument
is written `mfrac` here. -/
def marginOf (w h : ℕ) (mfrac : ℚ) : ℤ := pyInt (((min w h : ℕ) : ℚ) * mfrac)

/-- Line 57: `padding = max(2, int(size * 0.2))`.  For every integer
`size` with `|size| < 2^53` the double product `size * 0.2` rounds to the
same integer part as the exact product `size/5`, so the float literal
`0.2` is modelled by the exact rational `1/5`. -/
def paddingOf (size : ℤ) : ℤ := max 2 (pyInt ((size : ℚ) * (1/5)))

/-- The font size the spec claims: `max(12, round(min(W,H) * scale))`. -/
def specFontSize (w h : ℕ) (scale : ℚ) : ℤ := max 12 (specRound (((min w h : ℕ) : ℚ) * scale))

/-- The margin the spec claims: `round(min(W,H) * marginRatio)`. -/
def specMargin (w h : ℕ) (mfrac : ℚ) : ℤ := specRound (((min w h : ℕ) : ℚ) * mfrac)

/-- The padding the spec claims: `max(2, round(fontSize * 0.2))`. -/
def specPadding (size : ℤ) : ℤ := max 2 (specRound ((size : ℚ) * (1/5)))

/-- An image: width, height, PIL color mode string, and EXIF orientation
tag (1 when absent or normal; tags 5–8 transpose width and height). -/
structure Image where
  width : ℕ
  height : ℕ
  mode : String
  orientation : ℕ
deriving DecidableEq, Repr

/-- Line 36: `ImageOps.exif_transpose`.  Orientation tags 5 (TRANSPOSE),
6 (ROTATE_270), 7 (TRANSVERSE) and 8 (ROTATE_90) swap the two dimensions;
the other tags flip or rotate by 180° and keep them; the tag is cleared
in the result.  The color mode is preserved. -/
def exif_transpose (img : Image) : Image :=
  if img.orientation = 5 ∨ img.orientation = 6 ∨ img.orientation = 7 ∨ img.orientation = 8 then
    Image.mk img.height img.width img.mode 1
  else
    Image.mk img.width img.height img.mode 1

/-- `Image.convert`: changes only the color mode. -/
def withMode (img : Image) (m : String) : Image :=
  Image.mk img.width img.height m img.orientation

/-- The translation part of PIL's rotation-about-center affine map for a
`w × h` buffer, given the cosine `c` and sine `s` the code computes for
the angle (floats, hence rationals). -/
def rotShift (w h : ℤ) (c s : ℚ) : ℚ × ℚ :=
  ((w : ℚ)/2 - (c * ((w : ℚ)/2) + s * ((h : ℚ)/2)),
   (h : ℚ)/2 - (-s * ((w : ℚ)/2) + c * ((h : ℚ)/2)))

/-- x-coordinate of PIL's rotation affine map applied to `(x, y)`. -/
def rx (w h : ℤ) (c s : ℚ) (x y : ℚ) : ℚ := c * x + s * y + (rotShift w h c s).1

/-- y-coordinate of PIL's rotation affine map applied to `(x, y)`. -/
def ry (w h : ℤ) (c s : ℚ) (x y : ℚ) : ℚ := -s * x + c * y + (rotShift w h c s).2

/-- Transformed x-coordinates of the four corners of a `w × h` buffer. -/
def cornerXs (w h : ℤ) (c s : ℚ) : List ℚ :=
  [rx w h c s 0 0, rx w h c s w 0, rx w h c s w h, rx w h c s 0 h]

/-- Transformed y-coordinates of the four corners of a `w × h` buffer. -/
def cornerYs (w h : ℤ) (c s : ℚ) : List ℚ :=
  [ry w h c s 0 0, ry w h c s w 0, ry w h c s w h, ry w h c s 0 h]

/-- Least transformed corner x-coordinate. -/
def minX (w h : ℤ) (c s : ℚ) : ℚ :=
  min (min (rx w h c s 0 0) (rx w h c s w 0)) (min (rx w h c s w h) (rx w h c s 0 h))

/-- Greatest transformed corner x-coordinate. -/
def maxX (w h : ℤ) (c s : ℚ) : ℚ :=
  max (max (rx w h c s 0 0) (rx w h c s w 0)) (max (rx w h c s w h) (rx w h c s 0 h))

/-- Least transformed corner y-coordinate. -/
def minY (w h : ℤ) (c s : ℚ) : ℚ :=
  min (min (ry w h c s 0 0) (ry w h c s w 0)) (min (ry w h c s w h) (ry w h c s 0 h))

/-- Greatest transformed corner y-coordinate. -/
def maxY (w h : ℤ) (c s : ℚ) : ℚ :=
  max (max (ry w h c s 0 0) (ry w h c s w 0)) (max (ry w h c s w h) (ry w h c s 0 h))

/-- Line 63 / PIL `Image.rotate(angle, expand=True)`: the expanded canvas
size `(ceil(max xx) - floor(min xx), ceil(max yy) - floor(min yy))` over
the four transformed corners. -/
def rotatedSize (w h : ℤ) (c s : ℚ) : ℤ × ℤ :=
  (⌈maxX w h c s⌉ - ⌊minX w h c s⌋, ⌈maxY w h c s⌉ - ⌊minY w h c s⌋)

/-- Line 63: the `fillcolor` of the rotate call — fully transparent. -/
def rotateFillcolor : ℤ × ℤ × ℤ × ℤ := (0, 0, 0, 0)

/-- Lines 65–66: `x = max(0, w - rotated.width - margin)` and
`y = max(0, h - rotated.height - margin)`. -/
def pasteOffset (w h : ℕ) (rW rH margin : ℤ) : ℤ × ℤ :=
  (max 0 ((w : ℤ) - rW - margin), max 0 ((h : ℤ) - rH - margin))

/-- A pixel grid holding an alpha value at every integer coordinate. -/
abbrev Grid : Type := ℤ → ℤ → ℕ

/-- Line 67: `txt_layer.paste(rotated, (x, y), rotated)` — PIL paste with
the raster's own alpha as the mask.  A destination pixel changes only if
it lies on the `dstW × dstH` canvas, under the translated `rW × rH`
raster rectangle, and the raster's alpha there is non-zero; an oversized
raster is thereby clipped by the canvas bounds, never resized. -/
def pasteMasked (dstW dstH : ℕ) (dst : Grid) (src : Grid) (rW rH : ℤ) (x y : ℤ) : Grid :=
  fun i j =>
    if 0 ≤ i ∧ i < (dstW : ℤ) ∧ 0 ≤ j ∧ j < (dstH : ℤ) ∧
       x ≤ i ∧ i < x + rW ∧ y ≤ j ∧ j < y + rH ∧ src (i - x) (j - y) ≠ 0
    then src (i - x) (j - y) else dst i j

/-- Lines 71–78: restore the output color mode from the original mode.
`convOk` abstracts whether the best-effort `convert("RGB")` of the
fallthrough case succeeds (its failure is caught and the RGBA composite
returned unchanged). -/
def restoreMode (origMode : String) (combined : Image) (convOk : Bool) : Image :=
  if origMode = "RGBA" then combined
  else if origMode = "RGB" ∨ origMode = "L" then withMode combined origMode
  else if convOk then withMode combined ("RGB") else combined

/-- Lines 36–78: the dimension, geometry and mode behaviour of
`add_text_watermark`.  `tw`/`th` are the measured text bounding-box
dimensions returned by the rasterization collaborator, `c`/`s` the cosine
and sine of the rotation angle, `convOk` whether the final best-effort
RGB conversion succeeds. -/
def add_text_watermark (img : Image) (tw th : ℕ) (opacity scale mfrac : ℚ)
    (c s : ℚ) (convOk : Bool) : Image :=
  let img1 := exif_transpose img
  let w := img1.width
  let h := img1.height
  let size := fontSize w h scale
  let alpha := alphaOf opacity
  let shadow := shadow_alphaOf opacity
  let margin := marginOf w h mfrac
  let padding := paddingOf size
  let rot := rotatedSize ((tw : ℤ) + padding * 2) ((th : ℤ) + padding * 2) c s
  let xy := pasteOffset w h rot.1 rot.2 margin
  let combined := Image.mk w h ("RGBA") 1
  restoreMode img1.mode combined convOk

/-- ASCII lowercasing of a string, as Python `str.lower()` acts on the
extension strings involved here. -/
def strLower (t : String) : String := String.mk (t.data.map Char.toLower)

/-- `pathlib.PurePath.suffix`: the final component's extension including
the dot; empty when there is no dot, when the only dot is leading, or
when the dot is the last character. -/
def suffixOf (name : String) : String :=
  let cs := name.data
  let n := cs.length
  let j := cs.reverse.indexOf ('.')
  if j < n then
    let i := n - 1 - j
    if 0 < i ∧ i + 1 < n then String.mk (cs.drop i) else String.mk []
  else String.mk []

/-- Line 6: the recognized image extensions. -/
def ALLOWED_EXTS : List String := [".jpg", ".jpeg", ".png", ".webp", ".bmp", ".tif", ".tiff"]

/-- A file entry under the input root: its path components relative to
the input root, whether it is a regular file, and the components of its
fully resolved (absolute, symlink-free) path. -/
structure Entry where
  rel : List String
  isFile : Bool
  resolvedPath : List String
deriving DecidableEq, Repr

/-- The final path component (pathlib `name`). -/
def entryName (e : Entry) : String := List.getLastD e.rel (String.mk [])

/-- Lines 81–82: `p.is_file() and p.suffix.lower() in ALLOWED_EXTS`. -/
def is_image_file (e : Entry) : Bool :=
  e.isFile && ALLOWED_EXTS.contains (strLower (suffixOf (entryName e)))

/-- Lines 85–90: `is_subpath` — `path.resolve().relative_to(parent.resolve())`
succeeds exactly when the resolved parent's components are a prefix of
the resolved path's components. -/
def is_subpath (pathRes parentRes : List String) : Bool :=
  parentRes.isPrefixOf pathRes

/-- Lines 125–129: the directory scan — keep the listed entries that are
image files and do not resolve into the output root, pairing each with
`output_dir / p.relative_to(input_dir)`. -/
def scanPairs (outRes outDir : List String) (listing : List Entry) :
    List (Entry × List String) :=
  (listing.filter (fun e => is_image_file e && ! is_subpath e.resolvedPath outRes)).map
    (fun e => (e, outDir ++ e.rel))

/-- Line 98: the JPEG-family extensions. -/
def jpegExts : List String := [".jpg", ".jpeg"]

/-- PIL modes that carry an alpha channel. -/
def modeHasAlpha (m : String) : Bool :=
  m = "RGBA" || m = "LA" || m = "PA" || m = "RGBa" || m = "La"

/-- The keyword arguments passed to `Image.save`. -/
structure SaveKwargs where
  quality : Option ℕ
  optimize : Bool
deriving DecidableEq, Repr

/-- Lines 96–101: given the input path's suffix, the image actually saved
and the kwargs used: JPEG-family inputs are flattened to RGB and saved
with quality 90 and the optimize flag; all others are saved unchanged
with no kwargs. -/
def process_save (sfx : String) (wm : Image) : Image × SaveKwargs :=
  if strLower sfx ∈ jpegExts then (withMode wm ("RGB"), SaveKwargs.mk (some 90) true)
  else (wm, SaveKwargs.mk none false)

/-- One status line printed by the loop: success or failure for a file. -/
inductive LogLine (α : Type) where
  | okLine (f : α) : LogLine α
  | failLine (f : α) : LogLine α
deriving DecidableEq, Repr

/-- The loop state of lines 131–148: files attempted, successes, log. -/
structure RunState (α : Type) where
  total : ℕ
  ok : ℕ
  log : List (LogLine α)
deriving DecidableEq, Repr

/-- Whether a per-file processing result is a success. -/
def isOkB {ε α : Type} (r : Except ε α) : Bool :=
  match r with
  | Except.ok _ => true
  | Except.error _ => false

/-- Lines 132–148: one loop iteration — `total += 1`, then the per-file
work; on success `ok += 1` and a success line, on any exception a failure
line; either way the state is returned and the loop continues. -/
def runStep {α ε : Type} (process : α → Except ε Unit) (st : RunState α) (f : α) :
    RunState α :=
  match process f with
  | Except.ok _ => RunState.mk (st.total + 1) (st.ok + 1) (st.log ++ [LogLine.okLine f])
  | Except.error _ => RunState.mk (st.total + 1) st.ok (st.log ++ [LogLine.failLine f])

/-- Lines 131–148: the whole per-file loop over the scanned files. -/
def runLoop {α ε : Type} (process : α → Except ε Unit) (files : List α) : RunState α :=
  files.foldl (runStep process) (RunState.mk 0 0 [])

/-- Line 150: the final summary `<succeeded>/<total>`. -/
def summaryOf {α : Type} (st : RunState α) : ℕ × ℕ := (st.ok, st.total)

/-- The expected log: one line per file, matching its outcome. -/
def logOf {α ε : Type} (process : α → Except ε Unit) (files : List α) : List (LogLine α) :=
  files.map (fun f => if isOkB (process f) then LogLine.okLine f else LogLine.failLine f)

/-- Lines 14–20: the hard-coded candidate font files. -/
def fontCandidates : List String :=
  ["/System/Library/Fonts/PingFang.ttc",
   "/System/Library/Fonts/Supplemental/Arial.ttf",
   "/Library/Fonts/Arial.ttf",
   "/System/Library/Fonts/Supplemental/Arial Unicode.ttf",
   "/Library/Fonts/Arial Unicode.ttf"]

/-- Lines 9–24: `find_font` — the explicit path when it is truthy and an
existing file, else the first existing candidate, else nothing.  `isFile`
abstracts `Path.is_file`. -/
def find_font (isFile : String → Bool) (explicit : Option String) : Option String :=
  match explicit with
  | some e => if (e != "") && isFile e then some e else fontCandidates.find? isFile
  | none => fontCandidates.find? isFile

/-- A font handle as used for drawing. -/
inductive Font where
  | truetype (path : String) (size : ℤ) : Font
  | default : Font
deriving DecidableEq, Repr

/-- The nominal pixel size carried by a font handle; the built-in default
face carries none — its size is fixed, independent of the computed size. -/
def fontSizeOf (f : Font) : Option ℤ :=
  match f with
  | Font.truetype _ sz => some sz
  | Font.default => none

/-- Lines 44–48: font selection with fallback — `truetype(fp, size=size)`
when a path was found and loading succeeds, else `ImageFont.load_default()`
called without any size.  `loadOk` abstracts whether `truetype` raises. -/
def load_font (isFile : String → Bool) (loadOk : String → ℤ → Bool)
    (explicit : Option String) (size : ℤ) : Font :=
  match find_font isFile explicit with
  | some fp => if loadOk fp size then Font.truetype fp size else Font.default
  | none => Font.default

-- ## Theorems

/-- Evaluation helper for concrete floors. -/
theorem floor_eval {q : ℚ} {z : ℤ} (h1 : (z : ℚ) ≤ q) (h2 : q < z + 1) : ⌊q⌋ = z :=
  Int.floor_eq_iff.mpr ⟨h1, h2⟩

/-- `pyInt` is the floor on nonnegative arguments. -/
theorem pyInt_of_nonneg {q : ℚ} (h : 0 ≤ q) : pyInt q = ⌊q⌋ := if_pos h

/-- Floor of an integer halved, as integer division. -/
theorem floor_half (a : ℤ) : ⌊(a : ℚ) * (1/2)⌋ = a / 2 := by
  have h : (a : ℚ) * (1/2) = (a : ℚ) / ((2 : ℕ) : ℚ) := by push_cast; ring
  rw [h, Rat.floor_intCast_div_natCast a 2]
  norm_num

/-- Floor of an integer divided by five, as integer division. -/
theorem floor_fifth (a : ℤ) : ⌊(a : ℚ) * (1/5)⌋ = a / 5 := by
  have h : (a : ℚ) * (1/5) = (a : ℚ) / ((5 : ℕ) : ℚ) := by push_cast; ring
  rw [h, Rat.floor_intCast_div_natCast a 5]
  norm_num

/-- C1 counterexample: at `opacity = 0.01` the code's alpha is
`int(255*0.01) = int(2.55) = 2`, while `round(255*0.01) = 3`; hence the
claimed equalities fail on an opacity inside `[0,1]`. -/
theorem alpha_round_counterexample :
    (0 : ℚ) ≤ 1/100 ∧ (1/100 : ℚ) ≤ 1 ∧
      ¬(alphaOf (1/100) = specAlpha (1/100) ∧
        shadow_alphaOf (1/100) = specShadowAlpha (1/100)) := by
  have hfl : ⌊(255 : ℚ) * (1/100)⌋ = 2 := floor_eval (by norm_num) (by norm_num)
  have hrd : ⌊(255 : ℚ) * (1/100) + 1/2⌋ = 3 := floor_eval (by norm_num) (by norm_num)
  have ha : alphaOf (1/100) = 2 := by
    rw [alphaOf, pyInt_of_nonneg (by norm_num), hfl]; decide
  have hs : specAlpha (1/100) = 3 := by
    rw [specAlpha, specRound, hrd]; decide
  refine ⟨by norm_num, by norm_num, ?_⟩
  intro hcl
  rw [ha, hs] at hcl
  exact absurd hcl.1 (by norm_num)

/-- C1 amended: for every opacity in `[0,1]`, the primary alpha is the
truncation `⌊255*opacity⌋` (the clamps to `[0,255]` are no-ops there), and
the shadow alpha is its integer half `⌊255*opacity⌋ / 2`; these are exactly
the values placed in the two fill tuples of lines 60–61. -/
theorem alpha_shadow_trunc (o : ℚ) (h0 : 0 ≤ o) (h1 : o ≤ 1) :
    alphaOf o = ⌊255 * o⌋ ∧
    shadow_alphaOf o = ⌊255 * o⌋ / 2 ∧
    (primaryFill o).2.2.2 = ⌊255 * o⌋ ∧
    (shadowFill o).2.2.2 = ⌊255 * o⌋ / 2 := by
  have hq : (0 : ℚ) ≤ 255 * o := by positivity
  have hub : (255 : ℚ) * o ≤ 255 := by nlinarith
  have hfl_ub : ⌊(255 : ℚ) * o⌋ ≤ 255 := by
    have := Int.floor_le_floor hub
    simpa using this
  have hfl_lb : 0 ≤ ⌊(255 : ℚ) * o⌋ := Int.floor_nonneg.mpr hq
  have ha : alphaOf o = ⌊255 * o⌋ := by
    rw [alphaOf, pyInt_of_nonneg hq, min_eq_right hfl_ub, max_eq_right hfl_lb]
  have hs : shadow_alphaOf o = ⌊255 * o⌋ / 2 := by
    rw [shadow_alphaOf, ha]
    have hq2 : (0 : ℚ) ≤ (⌊(255 : ℚ) * o⌋ : ℚ) * (1/2) := by positivity
    rw [pyInt_of_nonneg hq2, floor_half]
    have hdub : ⌊(255 : ℚ) * o⌋ / 2 ≤ 255 := by omega
    have hdlb : 0 ≤ ⌊(255 : ℚ) * o⌋ / 2 := by omega
    rw [min_eq_right hdub, max_eq_right hdlb]
  exact ⟨ha, hs, by simpa [primaryFill] using ha, by simpa [shadowFill] using hs⟩

/-- C1 witness: at `opacity = 0.3` the theorem gives `alpha = ⌊76.5⌋ = 76`
and `shadow_alpha = 38`. -/
theorem alpha_shadow_trunc_witness :
    alphaOf (3/10) = 76 ∧ shadow_alphaOf (3/10) = 38 := by
  have h := alpha_shadow_trunc (3/10) (by norm_num) (by norm_num)
  have hfl : ⌊(255 : ℚ) * (3/10)⌋ = 76 := floor_eval (by norm_num) (by norm_num)
  refine ⟨h.1.trans ?_, h.2.1.trans ?_⟩
  · rw [hfl]
  · rw [hfl]; decide

/-- C3 counterexample: on a 64×64 image with `scale = margin_ratio =
243/256` (an exact double), `min(W,H)*scale = 60.75`, so the code computes
`fontSize = max(12, int(60.75)) = 60` and `margin = 60`, while the claim's
`round` gives 61 for both; the claimed conjunction fails. -/
theorem geometry_round_counterexample :
    ¬(fontSize 64 64 (243/256) = specFontSize 64 64 (243/256) ∧
      marginOf 64 64 (243/256) = specMargin 64 64 (243/256) ∧
      paddingOf (fontSize 64 64 (243/256)) = specPadding (fontSize 64 64 (243/256))) := by
  have hmin : ((min 64 64 : ℕ) : ℚ) = 64 := by norm_num
  have hfl : ⌊(64 : ℚ) * (243/256)⌋ = 60 := floor_eval (by norm_num) (by norm_num)
  have hrd : ⌊(64 : ℚ) * (243/256) + 1/2⌋ = 61 := floor_eval (by norm_num) (by norm_num)
  have ha : fontSize 64 64 (243/256) = 60 := by
    rw [fontSize, hmin, pyInt_of_nonneg (by norm_num), hfl]; decide
  have hs : specFontSize 64 64 (243/256) = 61 := by
    rw [specFontSize, hmin, specRound, hrd]; decide
  intro hcl
  rw [ha, hs] at hcl
  exact absurd hcl.1 (by norm_num)

/-- C3 amended: with `int()` truncation in place of the claim's `round`,
for nonnegative scale, ratio and size the geometry is
`fontSize = max(12, ⌊min(W,H)*scale⌋)` (hence always ≥ 12),
`margin = ⌊min(W,H)*marginRatio⌋`, and
`padding = max(2, size div 5)` (hence always ≥ 2). -/
theorem geometry_trunc (w h : ℕ) (scale mfrac : ℚ) (size : ℤ)
    (hs : 0 ≤ scale) (hm : 0 ≤ mfrac) (hsz : 0 ≤ size) :
    fontSize w h scale = max 12 ⌊((min w h : ℕ) : ℚ) * scale⌋ ∧
    12 ≤ fontSize w h scale ∧
    marginOf w h mfrac = ⌊((min w h : ℕ) : ℚ) * mfrac⌋ ∧
    paddingOf size = max 2 (size / 5) ∧
    2 ≤ paddingOf size := by
  have h1 : (0 : ℚ) ≤ ((min w h : ℕ) : ℚ) * scale := by positivity
  have h2 : (0 : ℚ) ≤ ((min w h : ℕ) : ℚ) * mfrac := by positivity
  have h3 : (0 : ℚ) ≤ (size : ℚ) * (1/5) := by positivity
  refine ⟨?_, ?_, ?_, ?_, ?_⟩
  · rw [fontSize, pyInt_of_nonneg h1]
  · exact le_max_left _ _
  · rw [marginOf, pyInt_of_nonneg h2]
  · rw [paddingOf, pyInt_of_nonneg h3, floor_fifth]
  · exact le_max_left _ _

/-- C3 witness: a 1000×800 image with the default parameters
`scale = 0.04`, `margin_ratio = 0.02` and a font size of 32. -/
theorem geometry_trunc_witness :
    fontSize 1000 800 (1/25) = max 12 ⌊((min 1000 800 : ℕ) : ℚ) * (1/25)⌋ ∧
    12 ≤ fontSize 1000 800 (1/25) ∧
    marginOf 1000 800 (1/50) = ⌊((min 1000 800 : ℕ) : ℚ) * (1/50)⌋ ∧
    paddingOf 32 = max 2 (32 / 5) ∧
    2 ≤ paddingOf 32 :=
  geometry_trunc 1000 800 (1/25) (1/50) 32 (by norm_num) (by norm_num) (by norm_num)

/-- `restoreMode` never changes the width. -/
theorem restoreMode_width (m : String) (cb : Image) (b : Bool) :
    (restoreMode m cb b).width = cb.width := by
  unfold restoreMode withMode
  split_ifs <;> rfl

/-- `restoreMode` never changes the height. -/
theorem restoreMode_height (m : String) (cb : Image) (b : Bool) :
    (restoreMode m cb b).height = cb.height := by
  unfold restoreMode withMode
  split_ifs <;> rfl

/-- C2 counterexample: a 100×50 RGB image carrying EXIF orientation tag 6
(camera rotated 90°, as `exif_transpose` handles on line 36) comes out of
`add_text_watermark` with width 50 — not the width 100 of the image passed
in, refuting the claimed size identity. -/
theorem output_dims_exif_counterexample :
    (Image.mk 100 50 ("RGB") 6).width = 100 ∧
    (add_text_watermark (Image.mk 100 50 ("RGB") 6) 40 10 (3/10) (1/25) (1/50) 1 0 true).width = 50 := by
  constructor
  · rfl
  · show (restoreMode (exif_transpose (Image.mk 100 50 ("RGB") 6)).mode _ true).width = 50
    rw [restoreMode_width]
    simp [exif_transpose]

/-- C2 amended: the output of `add_text_watermark` always has exactly the
dimensions of the EXIF-normalized input (line 36); in particular, whenever
the orientation tag is not one of the transposing tags 5–8, the output
dimensions equal the input dimensions — the watermark itself never
resizes or crops. -/
theorem output_dims (img : Image) (tw th : ℕ) (o sc mf c s : ℚ) (cOk : Bool) :
    ((add_text_watermark img tw th o sc mf c s cOk).width = (exif_transpose img).width ∧
     (add_text_watermark img tw th o sc mf c s cOk).height = (exif_transpose img).height) ∧
    (img.orientation ≠ 5 → img.orientation ≠ 6 → img.orientation ≠ 7 → img.orientation ≠ 8 →
      (add_text_watermark img tw th o sc mf c s cOk).width = img.width ∧
      (add_text_watermark img tw th o sc mf c s cOk).height = img.height) := by
  have hw : (add_text_watermark img tw th o sc mf c s cOk).width = (exif_transpose img).width := by
    show (restoreMode (exif_transpose img).mode _ cOk).width = _
    rw [restoreMode_width]
  have hh : (add_text_watermark img tw th o sc mf c s cOk).height = (exif_transpose img).height := by
    show (restoreMode (exif_transpose img).mode _ cOk).height = _
    rw [restoreMode_height]
  refine ⟨⟨hw, hh⟩, ?_⟩
  intro h5 h6 h7 h8
  have hno : ¬(img.orientation = 5 ∨ img.orientation = 6 ∨ img.orientation = 7 ∨
      img.orientation = 8) := by
    rintro (h | h | h | h) <;> omega
  have ht : exif_transpose img = Image.mk img.width img.height img.mode 1 := by
    unfold exif_transpose
    rw [if_neg hno]
  constructor
  · rw [hw, ht]
  · rw [hh, ht]

/-- C2 witness: an untagged 1000×800 RGB image keeps its dimensions. -/
theorem output_dims_witness :
    (add_text_watermark (Image.mk 1000 800 ("RGB") 1) 50 12 (3/10) (1/25) (1/50) 1 0 true).width = 1000 ∧
    (add_text_watermark (Image.mk 1000 800 ("RGB") 1) 50 12 (3/10) (1/25) (1/50) 1 0 true).height = 800 := by
  have h := (output_dims (Image.mk 1000 800 ("RGB") 1) 50 12 (3/10) (1/25) (1/50) 1 0 true).2
    (by decide) (by decide) (by decide) (by decide)
  exact h

/-- C4: the paste offset is the pair of clamped bottom-right anchors from
lines 65–66, both components are nonnegative, and any pixel the masked
paste changes lies inside the `w×h` canvas and receives the raster's own
pixel at unscaled coordinates — an oversized raster is clipped, not
resized. -/
theorem paste_offset_clamped (w h : ℕ) (rW rH margin : ℤ) (dst src : Grid) (i j : ℤ) :
    pasteOffset w h rW rH margin =
      (max 0 ((w : ℤ) - rW - margin), max 0 ((h : ℤ) - rH - margin)) ∧
    0 ≤ (pasteOffset w h rW rH margin).1 ∧
    0 ≤ (pasteOffset w h rW rH margin).2 ∧
    (pasteMasked w h dst src rW rH (pasteOffset w h rW rH margin).1
        (pasteOffset w h rW rH margin).2 i j ≠ dst i j →
      (0 ≤ i ∧ i < (w : ℤ) ∧ 0 ≤ j ∧ j < (h : ℤ)) ∧
      pasteMasked w h dst src rW rH (pasteOffset w h rW rH margin).1
          (pasteOffset w h rW rH margin).2 i j =
        src (i - (pasteOffset w h rW rH margin).1) (j - (pasteOffset w h rW rH margin).2)) := by
  refine ⟨rfl, le_max_left _ _, le_max_left _ _, ?_⟩
  intro hne
  unfold pasteMasked at hne ⊢
  by_cases hc : 0 ≤ i ∧ i < ((w : ℕ) : ℤ) ∧ 0 ≤ j ∧ j < ((h : ℕ) : ℤ) ∧
      (pasteOffset w h rW rH margin).1 ≤ i ∧ i < (pasteOffset w h rW rH margin).1 + rW ∧
      (pasteOffset w h rW rH margin).2 ≤ j ∧ j < (pasteOffset w h rW rH margin).2 + rH ∧
      src (i - (pasteOffset w h rW rH margin).1) (j - (pasteOffset w h rW rH margin).2) ≠ 0
  · rw [if_pos hc]
    exact ⟨⟨hc.1, hc.2.1, hc.2.2.1, hc.2.2.2.1⟩, rfl⟩
  · rw [if_neg hc] at hne
    exact absurd rfl hne

/-- C4 witness: a 20×5 raster on a 10×8 canvas with margin 1 is anchored
at the clamped offset (0, 2). -/
theorem paste_offset_clamped_witness :
    0 ≤ (pasteOffset 10 8 20 5 1).1 ∧ 0 ≤ (pasteOffset 10 8 20 5 1).2 ∧
    pasteOffset 10 8 20 5 1 = (0, 2) := by
  have h := paste_offset_clamped 10 8 20 5 1 (fun _ _ => 0) (fun _ _ => 7) 0 0
  exact ⟨h.2.1, h.2.2.1, by decide⟩

/-- Every transformed corner x lies inside the expanded horizontal span
`[⌊minX⌋, ⌊minX⌋ + width]` of the rotated raster. -/
theorem corner_bounds_x (w h : ℤ) (c s : ℚ) (q : ℚ) (hq : q ∈ cornerXs w h c s) :
    (⌊minX w h c s⌋ : ℚ) ≤ q ∧
    q ≤ ((⌊minX w h c s⌋ + (rotatedSize w h c s).1 : ℤ) : ℚ) := by
  have hmin : minX w h c s ≤ q := by
    simp only [cornerXs, List.mem_cons, List.not_mem_nil, or_false] at hq
    unfold minX
    rcases hq with rfl | rfl | rfl | rfl <;> simp [min_le_iff]
  have hmax : q ≤ maxX w h c s := by
    simp only [cornerXs, List.mem_cons, List.not_mem_nil, or_false] at hq
    unfold maxX
    rcases hq with rfl | rfl | rfl | rfl <;> simp [le_max_iff]
  constructor
  · exact le_trans (Int.floor_le _) hmin
  · have hub : ((⌊minX w h c s⌋ + (rotatedSize w h c s).1 : ℤ) : ℚ) = ((⌈maxX w h c s⌉ : ℤ) : ℚ) := by
      unfold rotatedSize
      push_cast
      ring
    rw [hub]
    exact le_trans hmax (Int.le_ceil _)

/-- Every transformed corner y lies inside the expanded vertical span
`[⌊minY⌋, ⌊minY⌋ + height]` of the rotated raster. -/
theorem corner_bounds_y (w h : ℤ) (c s : ℚ) (q : ℚ) (hq : q ∈ cornerYs w h c s) :
    (⌊minY w h c s⌋ : ℚ) ≤ q ∧
    q ≤ ((⌊minY w h c s⌋ + (rotatedSize w h c s).2 : ℤ) : ℚ) := by
  have hmin : minY w h c s ≤ q := by
    simp only [cornerYs, List.mem_cons, List.not_mem_nil, or_false] at hq
    unfold minY
    rcases hq with rfl | rfl | rfl | rfl <;> simp [min_le_iff]
  have hmax : q ≤ maxY w h c s := by
    simp only [cornerYs, List.mem_cons, List.not_mem_nil, or_false] at hq
    unfold maxY
    rcases hq with rfl | rfl | rfl | rfl <;> simp [le_max_iff]
  constructor
  · exact le_trans (Int.floor_le _) hmin
  · have hub : ((⌊minY w h c s⌋ + (rotatedSize w h c s).2 : ℤ) : ℚ) = ((⌈maxY w h c s⌉ : ℤ) : ℚ) := by
      unfold rotatedSize
      push_cast
      ring
    rw [hub]
    exact le_trans hmax (Int.le_ceil _)

/-- The expanded width is within 2 of the exact rotated span width. -/
theorem rotated_size_tight_x (w h : ℤ) (c s : ℚ) :
    maxX w h c s - minX w h c s ≤ ((rotatedSize w h c s).1 : ℚ) ∧
    ((rotatedSize w h c s).1 : ℚ) < maxX w h c s - minX w h c s + 2 := by
  have h1 := Int.le_ceil (maxX w h c s)
  have h2 := Int.floor_le (minX w h c s)
  have h3 := Int.ceil_lt_add_one (maxX w h c s)
  have h4 := Int.sub_one_lt_floor (minX w h c s)
  unfold rotatedSize
  constructor <;> push_cast <;> linarith

/-- The expanded height is within 2 of the exact rotated span height. -/
theorem rotated_size_tight_y (w h : ℤ) (c s : ℚ) :
    maxY w h c s - minY w h c s ≤ ((rotatedSize w h c s).2 : ℚ) ∧
    ((rotatedSize w h c s).2 : ℚ) < maxY w h c s - minY w h c s + 2 := by
  have h1 := Int.le_ceil (maxY w h c s)
  have h2 := Int.floor_le (minY w h c s)
  have h3 := Int.ceil_lt_add_one (maxY w h c s)
  have h4 := Int.sub_one_lt_floor (minY w h c s)
  unfold rotatedSize
  constructor <;> push_cast <;> linarith

/-- Rotating by 0° (cosine 1, sine 0) expands nothing: the raster keeps
the padded buffer's dimensions. -/
theorem rotated_size_zero (w h : ℤ) (hw : 0 ≤ w) (hh : 0 ≤ h) :
    rotatedSize w h 1 0 = (w, h) := by
  have e0 : rotShift w h 1 0 = (0, 0) := by
    unfold rotShift
    norm_num
  have ex : ∀ x y : ℚ, rx w h 1 0 x y = x := by
    intro x y
    unfold rx
    rw [e0]
    norm_num
  have ey : ∀ x y : ℚ, ry w h 1 0 x y = y := by
    intro x y
    unfold ry
    rw [e0]
    norm_num
  have hw' : (0 : ℚ) ≤ (w : ℚ) := by exact_mod_cast hw
  have hh' : (0 : ℚ) ≤ (h : ℚ) := by exact_mod_cast hh
  unfold rotatedSize minX maxX minY maxY
  rw [ex, ex, ex, ex, ey, ey, ey, ey]
  simp only [min_eq_left hw', min_eq_right hw', min_eq_left hh', min_eq_right hh',
    max_eq_right hw', max_eq_left hw', max_eq_right hh', max_eq_left hh',
    min_self, max_self]
  simp

/-- C5: for every rotation (cosine `c`, sine `s` as computed by the code)
the expanded raster of the padded `(tw+2p) × (th+2p)` text buffer contains
every transformed corner without clipping, its dimensions are tight
(within the sub-pixel ceil/floor slack of the exact rotated span), the
corners of the rotate call are filled fully transparent, and rotating by
0° yields exactly `(tw + 2*padding, th + 2*padding)`. -/
theorem rotated_raster_size (tw th : ℕ) (pad : ℤ) (hp : 0 ≤ pad) (c s : ℚ) :
    (∀ q ∈ cornerXs ((tw : ℤ) + pad * 2) ((th : ℤ) + pad * 2) c s,
      (⌊minX ((tw : ℤ) + pad * 2) ((th : ℤ) + pad * 2) c s⌋ : ℚ) ≤ q ∧
      q ≤ ((⌊minX ((tw : ℤ) + pad * 2) ((th : ℤ) + pad * 2) c s⌋ +
            (rotatedSize ((tw : ℤ) + pad * 2) ((th : ℤ) + pad * 2) c s).1 : ℤ) : ℚ)) ∧
    (∀ q ∈ cornerYs ((tw : ℤ) + pad * 2) ((th : ℤ) + pad * 2) c s,
      (⌊minY ((tw : ℤ) + pad * 2) ((th : ℤ) + pad * 2) c s⌋ : ℚ) ≤ q ∧
      q ≤ ((⌊minY ((tw : ℤ) + pad * 2) ((th : ℤ) + pad * 2) c s⌋ +
            (rotatedSize ((tw : ℤ) + pad * 2) ((th : ℤ) + pad * 2) c s).2 : ℤ) : ℚ)) ∧
    (maxX ((tw : ℤ) + pad * 2) ((th : ℤ) + pad * 2) c s -
        minX ((tw : ℤ) + pad * 2) ((th : ℤ) + pad * 2) c s ≤
      ((rotatedSize ((tw : ℤ) + pad * 2) ((th : ℤ) + pad * 2) c s).1 : ℚ)) ∧
    (maxY ((tw : ℤ) + pad * 2) ((th : ℤ) + pad * 2) c s -
        minY ((tw : ℤ) + pad * 2) ((th : ℤ) + pad * 2) c s ≤
      ((rotatedSize ((tw : ℤ) + pad * 2) ((th : ℤ) + pad * 2) c s).2 : ℚ)) ∧
    rotateFillcolor.2.2.2 = 0 ∧
    rotatedSize ((tw : ℤ) + pad * 2) ((th : ℤ) + pad * 2) 1 0 =
      ((tw : ℤ) + pad * 2, (th : ℤ) + pad * 2) := by
  refine ⟨?_, ?_, ?_, ?_, rfl, ?_⟩
  · intro q hq
    exact corner_bounds_x _ _ c s q hq
  · intro q hq
    exact corner_bounds_y _ _ c s q hq
  · exact (rotated_size_tight_x _ _ c s).1
  · exact (rotated_size_tight_y _ _ c s).1
  · exact rotated_size_zero _ _ (by omega) (by omega)

/-- C5 witness: an 8×2 text box with padding 1 (a 10×4 padded buffer) at
angle 0 keeps its dimensions, and its first corner is inside the span. -/
theorem rotated_raster_size_witness :
    rotatedSize 10 4 1 0 = (10, 4) ∧
    (⌊minX 10 4 (1/2) (1/2)⌋ : ℚ) ≤ rx 10 4 (1/2) (1/2) 0 0 := by
  have h := rotated_raster_size 8 2 1 (by norm_num) (1/2) (1/2)
  have hz := h.2.2.2.2.2
  have hx := h.1 (rx ((8 : ℕ) + 1 * 2) ((2 : ℕ) + 1 * 2) (1/2) (1/2) 0 0)
    (by simp [cornerXs])
  norm_num at hz hx ⊢
  exact ⟨hz, hx.1⟩

/-- C6: mode restoration (lines 71–78) — an RGBA original is returned
unchanged; RGB and L originals get the composite converted back to that
mode; any other original mode is best-effort converted to RGB, and if
that conversion raises, the RGBA composite itself is returned. -/
theorem restore_mode_cases (cb : Image) (b : Bool) (m : String)
    (h1 : m ≠ "RGBA") (h2 : m ≠ "RGB") (h3 : m ≠ "L") :
    restoreMode ("RGBA") cb b = cb ∧
    restoreMode ("RGB") cb b = withMode cb ("RGB") ∧
    restoreMode ("L") cb b = withMode cb ("L") ∧
    restoreMode m cb true = withMode cb ("RGB") ∧
    restoreMode m cb false = cb := by
  have hno : ¬(m = "RGB" ∨ m = "L") := by
    rintro (h | h)
    · exact h2 h
    · exact h3 h
  refine ⟨?_, ?_, ?_, ?_, ?_⟩
  · unfold restoreMode
    rw [if_pos rfl]
  · unfold restoreMode
    rw [if_neg (by decide), if_pos (Or.inl rfl)]
  · unfold restoreMode
    rw [if_neg (by decide), if_pos (Or.inr rfl)]
  · unfold restoreMode
    rw [if_neg h1, if_neg hno, if_pos rfl]
  · unfold restoreMode
    rw [if_neg h1, if_neg hno, if_neg (by decide)]

/-- C6 witness: a palette-mode (`P`) original converts to RGB when the
conversion succeeds and falls back to the RGBA composite when it raises. -/
theorem restore_mode_cases_witness :
    restoreMode ("P") (Image.mk 3 2 ("RGBA") 1) true =
      withMode (Image.mk 3 2 ("RGBA") 1) ("RGB") ∧
    restoreMode ("P") (Image.mk 3 2 ("RGBA") 1) false = Image.mk 3 2 ("RGBA") 1 := by
  have h := restore_mode_cases (Image.mk 3 2 ("RGBA") 1) true ("P")
    (by decide) (by decide) (by decide)
  exact ⟨h.2.2.2.1, h.2.2.2.2⟩

/-- C7: for an input path whose lowercased suffix is a JPEG-family
extension, the saved image is converted to RGB — a mode with no alpha
channel — and the save uses quality 90 with the optimize flag. -/
theorem jpeg_save_flattens (sfx : String) (wm : Image)
    (hj : strLower sfx ∈ jpegExts) :
    (process_save sfx wm).1.mode = "RGB" ∧
    modeHasAlpha (process_save sfx wm).1.mode = false ∧
    (process_save sfx wm).2 = SaveKwargs.mk (some 90) true := by
  unfold process_save
  rw [if_pos hj]
  refine ⟨rfl, ?_, rfl⟩
  show modeHasAlpha ("RGB") = false
  decide

/-- C7 witness: an uppercase `.JPG` input is flattened and saved with
quality 90 and optimize. -/
theorem jpeg_save_flattens_witness :
    (process_save (".JPG") (Image.mk 5 4 ("RGB") 1)).1.mode = "RGB" ∧
    (process_save (".JPG") (Image.mk 5 4 ("RGB") 1)).2 = SaveKwargs.mk (some 90) true := by
  have h := jpeg_save_flattens (".JPG") (Image.mk 5 4 ("RGB") 1) (by decide)
  exact ⟨h.1, h.2.2⟩

/-- C8: the directory scan selects exactly the listed entries that are
regular files with a recognized extension (compared case-insensitively)
and do not resolve inside the output root, and pairs each with the
destination that mirrors its input-relative path under the output root. -/
theorem scan_characterization (outRes outDir : List String) (listing : List Entry)
    (e : Entry) (d : List String) :
    (e, d) ∈ scanPairs outRes outDir listing ↔
      e ∈ listing ∧ e.isFile = true ∧
      strLower (suffixOf (entryName e)) ∈ ALLOWED_EXTS ∧
      ¬ outRes <+: e.resolvedPath ∧
      d = outDir ++ e.rel := by
  unfold scanPairs
  constructor
  · intro hmem
    rcases List.mem_map.mp hmem with ⟨e1, he1, heq⟩
    rcases List.mem_filter.mp he1 with ⟨hl, hcond⟩
    rw [Prod.mk.injEq] at heq
    obtain ⟨rfl, rfl⟩ := heq
    rw [Bool.and_eq_true] at hcond
    obtain ⟨h1, h2⟩ := hcond
    simp only [is_image_file, Bool.and_eq_true] at h1
    obtain ⟨hf, hext⟩ := h1
    refine ⟨hl, hf, by simpa using hext, ?_, rfl⟩
    rw [Bool.not_eq_true'] at h2
    simp only [is_subpath] at h2
    intro hpre
    rw [← List.isPrefixOf_iff_prefix] at hpre
    rw [h2] at hpre
    exact absurd hpre (by decide)
  · rintro ⟨hl, hf, hext, hpre, rfl⟩
    apply List.mem_map.mpr
    refine ⟨e, ?_, rfl⟩
    apply List.mem_filter.mpr
    refine ⟨hl, ?_⟩
    rw [Bool.and_eq_true]
    constructor
    · simp only [is_image_file, Bool.and_eq_true]
      exact ⟨hf, by simpa using hext⟩
    · rw [Bool.not_eq_true']
      simp only [is_subpath]
      cases hc : outRes.isPrefixOf e.resolvedPath
      · rfl
      · exact absurd (List.isPrefixOf_iff_prefix.mp hc) hpre

/-- Loop invariant for the per-file loop: folding from any start state
adds the number of files to `total`, the number of successes to `ok`, and
one matching log line per file. -/
theorem runLoop_go {α ε : Type} (process : α → Except ε Unit) (files : List α)
    (st : RunState α) :
    files.foldl (runStep process) st =
      RunState.mk (st.total + files.length)
        (st.ok + files.countP (fun f => isOkB (process f)))
        (st.log ++ logOf process files) := by
  induction files generalizing st with
  | nil => simp [logOf]
  | cons f fs ih =>
    rw [List.foldl_cons, ih]
    cases hp : process f with
    | ok v =>
      simp [runStep, hp, logOf, isOkB, List.countP_cons, List.length_cons]
      omega
    | error err =>
      simp [runStep, hp, logOf, isOkB, List.countP_cons, List.length_cons]
      omega

/-- C9: the per-file loop (lines 131–148) is total — every listed file is
attempted, every failure is caught at the per-file boundary and logged as
a failure line, successes are counted, and the final summary reports the
number of successes out of the total number attempted. -/
theorem run_loop_summary {α ε : Type} (process : α → Except ε Unit) (files : List α) :
    (runLoop process files).total = files.length ∧
    (runLoop process files).ok = files.countP (fun f => isOkB (process f)) ∧
    (runLoop process files).log = logOf process files ∧
    summaryOf (runLoop process files) =
      (files.countP (fun f => isOkB (process f)), files.length) := by
  unfold runLoop
  rw [runLoop_go]
  simp [summaryOf]

/-- C10: whenever `find_font` yields no path, or loading the resolved
font raises, the selected font is the built-in default face, which
carries no size — independent of the computed `size`; and `find_font`
indeed yields nothing when the explicit path is not an existing file and
no hard-coded candidate exists. -/
theorem font_fallback_default (isFile : String → Bool) (loadOk : String → ℤ → Bool)
    (explicit : Option String) (size : ℤ)
    (hfb : find_font isFile explicit = none ∨
      ∃ fp, find_font isFile explicit = some fp ∧ loadOk fp size = false) :
    load_font isFile loadOk explicit size = Font.default ∧
    fontSizeOf (load_font isFile loadOk explicit size) = none ∧
    ((∀ x, explicit = some x → isFile x = false) →
      (∀ p ∈ fontCandidates, isFile p = false) →
      find_font isFile explicit = none) := by
  have hmain : load_font isFile loadOk explicit size = Font.default := by
    rcases hfb with hnone | ⟨fp, hsome, hload⟩
    · unfold load_font
      rw [hnone]
    · unfold load_font
      rw [hsome]
      simp [hload]
  refine ⟨hmain, by rw [hmain]; rfl, ?_⟩
  intro hex hcand
  have hfind : fontCandidates.find? isFile = none := by
    apply List.find?_eq_none.mpr
    intro p hp
    simp [hcand p hp]
  cases explicit with
  | none => exact hfind
  | some e =>
    have he : isFile e = false := hex e rfl
    show (if (e != "") && isFile e then some e else fontCandidates.find? isFile) = none
    rw [he]
    simp [hfind]

/-- C10 witness: with no explicit path and no candidate present on disk,
the default face (with no size) is used. -/
theorem font_fallback_default_witness :
    load_font (fun _ => false) (fun _ _ => true) none 12 = Font.default ∧
    fontSizeOf (load_font (fun _ => false) (fun _ _ => true) none 12) = none := by
  have h := font_fallback_default (fun _ => false) (fun _ _ => true) none 12
    (Or.inl rfl)
  exact ⟨h.1, h.2.1⟩

end Watermark
